import Mathlib

/-!
Verification of the data-transformation pipeline of the DGSHAPE dashboard
(`src/lib/dataLoader.ts`): CSV parsing, record mapping, time-window filtering,
grouping/aggregation and summary statistics.

The embedding models JavaScript numbers as `Int`/`Rat`, JavaScript `Map`
objects as insertion-ordered association lists, `Array.prototype.sort`
(a stable sort under a consistent comparator) as stable insertion sort, and
dates at calendar-day precision (date-fns `parseISO` restricted to
`YYYY-MM-DD` inputs; `format`/`startOfWeek`/`subMonths`/`subYears` modelled
with proleptic-Gregorian arithmetic).  `localeCompare` on the ASCII bucket
labels is modelled as lexicographic string comparison.
-/

namespace Dgshape

/-! ## Generic utilities: JS trim, insertion-ordered association maps, stable sort -/

/-- Whitespace characters stripped by `String.prototype.trim` (restricted to
the ASCII whitespace that can occur in the CSV inputs). -/
def isJsSpace (c : Char) : Bool :=
  c == ' ' || c == '\t' || c == '\n' || c == '\r'

/-- Strip leading and trailing whitespace from a character list. -/
def trimChars (cs : List Char) : List Char :=
  ((cs.dropWhile isJsSpace).reverse.dropWhile isJsSpace).reverse

/-- Model of `String.prototype.trim`. -/
def jsTrim (s : String) : String := String.mk (trimChars s.data)

/-- First-occurrence deduplication: the distinct elements of `l` in order of
first appearance (the key order of a JavaScript `Map` filled by iteration). -/
def dedupFirst [DecidableEq κ] (l : List κ) : List κ :=
  l.foldl (fun acc k => if k ∈ acc then acc else acc ++ [k]) []

/-- Update the value at key `k` in an insertion-ordered association list
(`Map.set` on an existing key keeps its position; a new key is appended). -/
def updAssoc [DecidableEq κ] (g : β → β) (d : β) : List (κ × β) → κ → List (κ × β)
  | [], k => [(k, d)]
  | (k', v) :: rest, k =>
    if k' = k then (k', g v) :: rest else (k', v) :: updAssoc g d rest k

/-- One step of the map-building fold: an element `a` with `key a = some k`
updates the entry at `k` with `g a` (or starts it at `d a`); an element with
`key a = none` is skipped. -/
def accumStep [DecidableEq κ] (key : α → Option κ) (g : α → β → β) (d : α → β)
    (m : List (κ × β)) (a : α) : List (κ × β) :=
  match key a with
  | none => m
  | some k => updAssoc (g a) (d a) m k

/-- Fold a list into an insertion-ordered association map. -/
def assocAccum [DecidableEq κ] (key : α → Option κ) (g : α → β → β) (d : α → β)
    (l : List α) : List (κ × β) :=
  l.foldl (accumStep key g d) []

/-- Value accumulated over one bucket: the first element seeds with `d`, the
rest are folded in with `g`; `dflt` is returned for an (unreachable) empty
bucket. -/
def accumVal (g : α → β → β) (d : α → β) (dflt : β) : List α → β
  | [] => dflt
  | a :: as => as.foldl (fun b a' => g a' b) (d a)

/-- Look up a key in an association list, with a default (models
`map.get(k) || dflt`). -/
def lookupD [DecidableEq κ] (m : List (κ × β)) (k : κ) (dflt : β) : β :=
  match m with
  | [] => dflt
  | (k', v) :: rest => if k' = k then v else lookupD rest k dflt

/-- Insert `x` into `l` keeping every `y` with `r y x = true` (meaning `y`
stays before `x`) in front; ties place `x` first (stability). -/
def insertOrd (r : α → α → Bool) (x : α) : List α → List α
  | [] => [x]
  | y :: ys => if r y x then y :: insertOrd r x ys else x :: y :: ys

/-- Stable insertion sort: `r a b = true` means `a` must come before `b`.
Models `Array.prototype.sort` under a consistent comparator. -/
def insSort (r : α → α → Bool) : List α → List α
  | [] => []
  | x :: xs => insertOrd r x (insSort r xs)

/-! ## Calendar-date model (date-fns at day precision) -/

/-- A calendar date in the proleptic Gregorian calendar. -/
structure SimpleDate where
  year : Int
  month : Nat
  day : Nat
deriving DecidableEq, Repr

/-- Gregorian leap-year test. -/
def isLeapYear (y : Int) : Bool :=
  Int.emod y 4 == 0 && (Int.emod y 100 != 0 || Int.emod y 400 == 0)

/-- Number of days in a month. -/
def daysInMonth (y : Int) (m : Nat) : Nat :=
  if m = 2 then (if isLeapYear y then 29 else 28)
  else if m = 4 ∨ m = 6 ∨ m = 9 ∨ m = 11 then 30
  else 31

/-- Days since 1970-01-01 of a civil date (Hinnant's `days_from_civil`). -/
def daysFromCivil (y : Int) (m : Nat) (d : Nat) : Int :=
  let y' : Int := if m ≤ 2 then y - 1 else y
  let era : Int := Int.ediv y' 400
  let yoe : Int := y' - era * 400
  let mp : Int := (m : Int) + (if m > 2 then -3 else 9)
  let doy : Int := Int.ediv (153 * mp + 2) 5 + (d : Int) - 1
  let doe : Int := yoe * 365 + Int.ediv yoe 4 - Int.ediv yoe 100 + doy
  era * 146097 + doe - 719468

/-- Civil date of a count of days since 1970-01-01 (Hinnant's
`civil_from_days`). -/
def civilFromDays (z0 : Int) : SimpleDate :=
  let z := z0 + 719468
  let era := Int.ediv z 146097
  let doe := z - era * 146097
  let yoe := Int.ediv (doe - Int.ediv doe 1460 + Int.ediv doe 36524 - Int.ediv doe 146096) 365
  let y := yoe + era * 400
  let doy := doe - (365 * yoe + Int.ediv yoe 4 - Int.ediv yoe 100)
  let mp := Int.ediv (5 * doy + 2) 153
  let d := doy - Int.ediv (153 * mp + 2) 5 + 1
  let m := mp + (if mp < 10 then 3 else -9)
  { year := y + (if m ≤ 2 then 1 else 0), month := m.toNat, day := d.toNat }

/-- Timestamp (in days) of a calendar date. -/
def toDays (d : SimpleDate) : Int := daysFromCivil d.year d.month d.day

/-- Day of week of a day count, `0` = Sunday (1970-01-01 was a Thursday);
models JavaScript `Date.prototype.getDay`. -/
def weekdayOf (t : Int) : Int := Int.emod (t + 4) 7

/-- date-fns `startOfWeek` (week starts on Sunday), on day counts. -/
def startOfWeekDays (t : Int) : Int := t - weekdayOf t

/-- Numeric value of a decimal digit character. -/
def digitVal (c : Char) : Nat := c.toNat - 48

/-- date-fns `parseISO`, restricted to date-only `YYYY-MM-DD` strings: the
result is `none` (an invalid date, excluded downstream) for anything else. -/
def parseISO (s : String) : Option SimpleDate :=
  match s.data with
  | [y1, y2, y3, y4, h1, m1, m2, h2, d1, d2] =>
    if y1.isDigit ∧ y2.isDigit ∧ y3.isDigit ∧ y4.isDigit ∧ h1 = '-' ∧
       m1.isDigit ∧ m2.isDigit ∧ h2 = '-' ∧ d1.isDigit ∧ d2.isDigit then
      let y : Int := (digitVal y1 * 1000 + digitVal y2 * 100 + digitVal y3 * 10 + digitVal y4 : Nat)
      let m := digitVal m1 * 10 + digitVal m2
      let d := digitVal d1 * 10 + digitVal d2
      if 1 ≤ m ∧ m ≤ 12 ∧ 1 ≤ d ∧ d ≤ daysInMonth y m then
        some { year := y, month := m, day := d }
      else none
    else none
  | _ => none

/-- date-fns `subMonths`: go back `n` calendar months, clamping the day of
month to the length of the resulting month. -/
def subMonthsDate (d : SimpleDate) (n : Int) : SimpleDate :=
  let m0 : Int := d.year * 12 + ((d.month : Int) - 1) - n
  let y := Int.ediv m0 12
  let m := (Int.emod m0 12).toNat + 1
  { year := y, month := m, day := min d.day (daysInMonth y m) }

/-- date-fns `subYears`: go back `n` calendar years, clamping the day of
month (Feb 29 becomes Feb 28). -/
def subYearsDate (d : SimpleDate) (n : Int) : SimpleDate :=
  { year := d.year - n, month := d.month,
    day := min d.day (daysInMonth (d.year - n) d.month) }

/-- Month abbreviation used by date-fns `format` pattern `MMM`. -/
def monthAbbrev : Nat → String
  | 1 => "Jan" | 2 => "Feb" | 3 => "Mar" | 4 => "Apr" | 5 => "May" | 6 => "Jun"
  | 7 => "Jul" | 8 => "Aug" | 9 => "Sep" | 10 => "Oct" | 11 => "Nov" | 12 => "Dec"
  | _ => ""

/-- Two-digit zero-padded day (`format` pattern `dd`). -/
def pad2 (n : Nat) : String :=
  if n < 10 then "0" ++ toString n else toString n

/-- Four-digit zero-padded year (`format` pattern `yyyy`). -/
def pad4 (n : Int) : String :=
  let s := toString n.toNat
  if s.length ≥ 4 then s else String.mk (List.replicate (4 - s.length) '0') ++ s

/-- `format(date, 'MMM dd')`. -/
def fmtMMMdd (d : SimpleDate) : String := monthAbbrev d.month ++ " " ++ pad2 d.day

/-- `format(date, 'MMM yyyy')`. -/
def fmtMMMyyyy (d : SimpleDate) : String := monthAbbrev d.month ++ " " ++ pad4 d.year

/-! ## Record types (`src/types/dental.ts`) -/

/-- `DailyData`: one row of the daily-summary CSV after mapping. -/
structure DailyData where
  start_date : String
  total_sessions : Int
  total_duration_minutes : Rat
  avg_duration_minutes : Rat
  completed_sessions : Int
  material_types : Int
  success_rate : Rat
  utilization_hours : Rat
  total_jobs : Int
deriving DecidableEq, Repr

/-- `JobSession`: one row of the job-sessions CSV after mapping.  `Option`
fields model `null`/`undefined` values observable by the aggregation code. -/
structure JobSession where
  session_id : Int
  session_start : String
  start_date : String
  start_hour : Option Int
  material_type : Option String
  material_color : Option String
  status : String
  duration_minutes : Option Rat
  job_count : Int
deriving DecidableEq, Repr

/-- `ChartData`: one chart point emitted by `groupDataByPeriod`. -/
structure ChartPoint where
  date : String
  jobs : Int
  success_rate : Rat
  utilization : Rat
deriving DecidableEq, Repr

/-- One entry of the material breakdown. -/
structure MatEntry where
  material : String
  count : Nat
  color : String
deriving DecidableEq, Repr

/-- `TimeRange`: the granularity selector. -/
inductive TimeRange
  | daily | weekly | monthly | yearly
deriving DecidableEq, Repr

/-- The result object of `processDataForTimeRange`. -/
structure AggResult where
  totalJobs : Nat
  successRate : Rat
  utilizationHours : Rat
  materialTypes : Nat
  avgDuration : Rat
  peakHour : Int
  errorCount : Nat
  chartData : List ChartPoint
  materialBreakdown : List MatEntry
  recentSessions : List JobSession
deriving DecidableEq, Repr

/-! ## CSV parser (`parseCSV`) -/

/-- One step of the per-line character scan of `parseCSV`: a double quote
toggles the in-quotes state (and is dropped), a comma outside quotes closes
the current field (trimmed), any other character is appended. -/
def csvStep (st : List String × List Char × Bool) (c : Char) :
    List String × List Char × Bool :=
  if c = '"' then (st.1, st.2.1, !st.2.2)
  else if c = ',' ∧ st.2.2 = false then
    (st.1 ++ [String.mk (trimChars st.2.1)], [], st.2.2)
  else (st.1, st.2.1 ++ [c], st.2.2)

/-- Split one CSV line into trimmed fields. -/
def parseLine (line : String) : List String :=
  let fin := line.data.foldl csvStep ([], [], false)
  fin.1 ++ [String.mk (trimChars fin.2.1)]

/-- `String.prototype.split` with a one-character separator: an empty input
yields one empty piece, and separators delimit (possibly empty) pieces. -/
def splitOnChar (sep : Char) (cs : List Char) : List (List Char) :=
  cs.foldr (fun c acc =>
    match acc with
    | [] => [[c]]
    | cur :: rest => if c = sep then [] :: (cur :: rest) else (c :: cur) :: rest) [[]]

/-- `parseCSV`: trim the document, split on newlines, scan each line. -/
def parseCSV (csvText : String) : List (List String) :=
  (splitOnChar '\n' (jsTrim csvText).data).map (fun cs => parseLine (String.mk cs))

/-! ## Record mapper (`parseDailyData` / `parseJobSessions`) -/

/-- Digit list to number (most significant first). -/
def digitsToNat (ds : List Char) : Nat :=
  ds.foldl (fun n c => n * 10 + (c.toNat - 48)) 0

/-- Parse a maximal decimal-digit run at the head of the input; `none` when
there is no leading digit. -/
def parseNatPfx (cs : List Char) : Option Nat :=
  let ds := cs.takeWhile Char.isDigit
  if ds.isEmpty then none else some (digitsToNat ds)

/-- JavaScript `parseInt` (decimal, on a pre-trimmed string): optional sign
then a maximal digit run; `none` models `NaN`. -/
def jsParseInt (s : String) : Option Int :=
  match s.data with
  | '-' :: rest => (parseNatPfx rest).map (fun n => -(n : Int))
  | '+' :: rest => (parseNatPfx rest).map (fun n => (n : Int))
  | cs => (parseNatPfx cs).map (fun n => (n : Int))

/-- Exponent suffix of a JavaScript float literal. -/
def parseExpPfx (cs : List Char) : Option Int :=
  match cs with
  | '-' :: r => (parseNatPfx r).map (fun n => -(n : Int))
  | '+' :: r => (parseNatPfx r).map (fun n => (n : Int))
  | _ => (parseNatPfx cs).map (fun n => (n : Int))

/-- JavaScript `parseFloat` (on a pre-trimmed string): sign, integer digits,
optional fraction, optional exponent; a maximal valid prefix is parsed and
`none` models `NaN`.  (Exact rational value; IEEE rounding is not modelled.) -/
def jsParseFloat (s : String) : Option Rat :=
  let signAndRest : Int × List Char :=
    match s.data with
    | '-' :: rest => (-1, rest)
    | '+' :: rest => (1, rest)
    | cs => (1, cs)
  let sign := signAndRest.1
  let cs := signAndRest.2
  let intDs := cs.takeWhile Char.isDigit
  let rest1 := cs.drop intDs.length
  let fracAndRest : List Char × List Char :=
    match rest1 with
    | '.' :: r => (r.takeWhile Char.isDigit, r.drop (r.takeWhile Char.isDigit).length)
    | _ => ([], rest1)
  let fracDs := fracAndRest.1
  let rest2 := fracAndRest.2
  if intDs.isEmpty ∧ fracDs.isEmpty then none
  else
    let mant : Rat :=
      (sign : Rat) * ((digitsToNat intDs : Rat) +
        (digitsToNat fracDs : Rat) / ((10 : Rat) ^ fracDs.length))
    let expOpt : Option Int :=
      match rest2 with
      | 'e' :: r => parseExpPfx r
      | 'E' :: r => parseExpPfx r
      | _ => none
    match expOpt with
    | some e => some (mant * (10 : Rat) ^ e)
    | none => some mant

/-- A dynamically typed field value of the row object built by the mappers. -/
inductive FieldVal
  | intV (n : Int)
  | numV (q : Rat)
  | strV (s : String)
deriving DecidableEq, Repr

/-- The dynamic row object (`const obj: any = {}`), an insertion-ordered
property list. -/
abbrev RawObj := List (String × FieldVal)

/-- Property assignment: overwrite an existing key in place, else append. -/
def objSet (o : RawObj) (k : String) (v : FieldVal) : RawObj :=
  match o with
  | [] => [(k, v)]
  | (k', v') :: rest =>
    if k' = k then (k', v) :: rest else (k', v') :: objSet rest k v

/-- Property read. -/
def objGet (o : RawObj) (k : String) : Option FieldVal :=
  match o with
  | [] => none
  | (k', v) :: rest => if k' = k then some v else objGet rest k

/-- Per-column coercion of `parseDailyData`: `start_date` passes through,
the four integer columns use `parseInt(value) || 0`, the four real columns
use `parseFloat(value) || 0`, any other header is ignored. -/
def dailyCoerce (cleanHeader value : String) : Option FieldVal :=
  if cleanHeader = "start_date" then some (.strV value)
  else if cleanHeader = "total_sessions" ∨ cleanHeader = "completed_sessions" ∨
          cleanHeader = "material_types" ∨ cleanHeader = "total_jobs" then
    some (.intV ((jsParseInt value).getD 0))
  else if cleanHeader = "total_duration_minutes" ∨ cleanHeader = "avg_duration_minutes" ∨
          cleanHeader = "success_rate" ∨ cleanHeader = "utilization_hours" then
    some (.numV ((jsParseFloat value).getD 0))
  else none

/-- Per-column coercion of `parseJobSessions`: three integer columns, one
real column, every other header passes the trimmed string through. -/
def sessionCoerce (cleanHeader value : String) : Option FieldVal :=
  if cleanHeader = "session_id" ∨ cleanHeader = "start_hour" ∨ cleanHeader = "job_count" then
    some (.intV ((jsParseInt value).getD 0))
  else if cleanHeader = "duration_minutes" then
    some (.numV ((jsParseFloat value).getD 0))
  else some (.strV value)

/-- The `headers.forEach((header, index) => ...)` loop of the mappers: walk
the headers with their index, coercing `row[index]?.trim() || ''` and
assigning it under the trimmed header name. -/
def mapRowAux (coerce : String → String → Option FieldVal) (row : List String) :
    List String → Nat → RawObj → RawObj
  | [], _, obj => obj
  | header :: hs, i, obj =>
    let cleanHeader := jsTrim header
    let value := jsTrim (row.getD i "")
    let obj' :=
      match coerce cleanHeader value with
      | some v => objSet obj cleanHeader v
      | none => obj
    mapRowAux coerce row hs (i + 1) obj'

/-- `parseDailyData`: first row is the header, every later row is mapped
(never dropped). -/
def parseDailyData (csvText : String) : List RawObj :=
  let rows := parseCSV csvText
  let headers := rows.headD []
  (rows.drop 1).map (fun row => mapRowAux dailyCoerce row headers 0 [])

/-- `parseJobSessions`: same shape with the session coercion table. -/
def parseJobSessions (csvText : String) : List RawObj :=
  let rows := parseCSV csvText
  let headers := rows.headD []
  (rows.drop 1).map (fun row => mapRowAux sessionCoerce row headers 0 [])

/-! ## Time-window selector and aggregation engine (`processDataForTimeRange`) -/

/-- The `startDate` of the `switch (timeRange)` block, as a day count:
`subDays(now, 30)`, `subWeeks(now, 12)`, `subMonths(now, 12)`,
`subYears(now, 5)`. -/
def windowStart (tr : TimeRange) (now : SimpleDate) : Int :=
  match tr with
  | .daily => toDays now - 30
  | .weekly => toDays now - 7 * 12
  | .monthly => toDays (subMonthsDate now 12)
  | .yearly => toDays (subYearsDate now 5)

/-- The `groupBy` label function of the `switch (timeRange)` block. -/
def groupKey (tr : TimeRange) : SimpleDate → String :=
  match tr with
  | .daily => fun d => fmtMMMdd d
  | .weekly => fun d => fmtMMMdd (civilFromDays (startOfWeekDays (toDays d)))
  | .monthly => fun d => fmtMMMyyyy { year := d.year, month := d.month, day := 1 }
  | .yearly => fun d => pad4 d.year

/-- The filter predicate: `parseISO` the date and test
`isWithinInterval(date, {start, end: now})`; a parse failure is caught and
yields `false`. -/
def inWindowB (startD nowD : Int) (s : String) : Bool :=
  match parseISO s with
  | some d => decide (startD ≤ toDays d ∧ toDays d ≤ nowD)
  | none => false

/-- The filtered daily aggregates of `processDataForTimeRange`. -/
def filteredDailyOf (dailyData : List DailyData) (tr : TimeRange) (now : SimpleDate) :
    List DailyData :=
  dailyData.filter (fun item => inWindowB (windowStart tr now) (toDays now) item.start_date)

/-- The filtered sessions of `processDataForTimeRange`. -/
def filteredSessionsOf (sessions : List JobSession) (tr : TimeRange) (now : SimpleDate) :
    List JobSession :=
  sessions.filter (fun s => inWindowB (windowStart tr now) (toDays now) s.start_date)

/-- `Math.round(x * 10) / 10`: round to one decimal, halves up. -/
def round1 (x : Rat) : Rat := ((⌊x * 10 + 1 / 2⌋ : Int) : Rat) / 10

/-- Sum of `total_sessions` (`reduce((sum, item) => sum + (item.total_sessions || 0), 0)`). -/
def sumTS (l : List DailyData) : Int := l.foldl (fun s item => s + item.total_sessions) 0

/-- Sum of `completed_sessions`. -/
def sumCS (l : List DailyData) : Int := l.foldl (fun s item => s + item.completed_sessions) 0

/-- Sum of `utilization_hours`. -/
def sumUH (l : List DailyData) : Rat := l.foldl (fun s item => s + item.utilization_hours) 0

/-- `groupDataByPeriod`: bucket the records by their date label into an
insertion-ordered map (records whose date fails to parse are skipped), emit
one point per bucket, and sort ascending by label. -/
def groupDataByPeriod (data : List DailyData) (gb : SimpleDate → String) :
    List ChartPoint :=
  let grouped := assocAccum (fun item => (parseISO item.start_date).map gb)
      (fun item bucket => bucket ++ [item]) (fun item => [item]) data
  insSort (fun a b => decide (a.date < b.date))
    (grouped.map (fun kv =>
      let totalJobs : Int := sumTS kv.2
      let totalCompleted : Int := sumCS kv.2
      let successRate : Rat :=
        if totalJobs > 0 then ((totalCompleted : Rat) / (totalJobs : Rat)) * 100 else 0
      { date := kv.1, jobs := totalJobs, success_rate := round1 successRate,
        utilization := round1 (sumUH kv.2) }))

/-- The key under which a session is counted in the material breakdown:
`if (session.material_type)` is JavaScript truthiness, so `null` and the
empty string are both skipped. -/
def materialKey (s : JobSession) : Option String :=
  match s.material_type with
  | some m => if m = "" then none else some m
  | none => none

/-- The `materialCounts` map: occurrences per truthy material type, in
insertion order. -/
def buildMaterialCounts (l : List JobSession) : List (String × Nat) :=
  assocAccum materialKey (fun _ c => c + 1) (fun _ => 1) l

/-- `getMaterialColor`: fixed lookup table with `colors.Unknown` as the
fallback for unlisted materials. -/
def getMaterialColor (material : String) : String :=
  if material = "Pan Dental" then "#3b82f6"
  else if material = "Denture Care" then "#10b981"
  else if material = "hyperDENT" then "#f59e0b"
  else if material = "Unknown" then "#6b7280"
  else "#6b7280"

/-- Build one breakdown entry from a counts pair. -/
def mkMatEntry (kv : String × Nat) : MatEntry :=
  { material := kv.1, count := kv.2, color := getMaterialColor kv.1 }

/-- The material breakdown: entries from the counts map, sorted descending
by count (`(a, b) => b.count - a.count`, stable). -/
def materialBreakdownOf (l : List JobSession) : List MatEntry :=
  insSort (fun a b => decide (b.count < a.count)) ((buildMaterialCounts l).map mkMatEntry)

/-- Effective timestamp of a session for the recent-sessions sort:
`new Date(b.session_start || b.start_date).getTime()`, at day precision,
with an unparsable timestamp modelled as `0`. -/
def effTimeOf (s : JobSession) : Int :=
  match parseISO (if s.session_start = "" then s.start_date else s.session_start) with
  | some d => toDays d
  | none => 0

/-- The in-place `filteredSessions.sort(...)`: stable sort descending by
effective timestamp. -/
def sortSessionsDesc (l : List JobSession) : List JobSession :=
  insSort (fun a b => decide (effTimeOf b < effTimeOf a)) l

/-- The `hourCounts` map: occurrences per defined `start_hour`, in insertion
order over the (already sorted) session list. -/
def buildHourCounts (l : List JobSession) : List (Int × Nat) :=
  assocAccum (fun s => s.start_hour) (fun _ c => c + 1) (fun _ => 1) l

/-- The peak-hour reduce: fold the count entries, replacing the accumulator
`[hour, count]` whenever the entry count strictly exceeds
`hourCounts.get(max[0]) || 0`, starting from `[9, 0]`. -/
def peakHourOf (l : List JobSession) : Int :=
  let hourCounts := buildHourCounts l
  (hourCounts.foldl
    (fun mx e => if lookupD hourCounts mx.1 0 < e.2 then e else mx)
    ((9 : Int), (0 : Nat))).1

/-- `processDataForTimeRange`, with the observation instant `now` made an
explicit parameter (the source reads `new Date()`).  The in-place sort of
`filteredSessions` happens before the duration, error and hour loops, which
therefore run over the sorted list. -/
def aggregate (dailyData : List DailyData) (sessions : List JobSession)
    (timeRange : TimeRange) (now : SimpleDate) : AggResult :=
  let filteredDaily := filteredDailyOf dailyData timeRange now
  let filteredSessions := filteredSessionsOf sessions timeRange now
  let groupedData := groupDataByPeriod filteredDaily (groupKey timeRange)
  let totalJobs := filteredSessions.length
  let completedJobs := (filteredSessions.filter (fun s => s.status == "Completed")).length
  let successRate : Rat :=
    if totalJobs > 0 then ((completedJobs : Rat) / (totalJobs : Rat)) * 100 else 0
  let totalUtilization := filteredDaily.foldl (fun sum item => sum + item.utilization_hours) 0
  let materialCounts := buildMaterialCounts filteredSessions
  let materialBreakdown := materialBreakdownOf filteredSessions
  let sortedSessions := sortSessionsDesc filteredSessions
  let recentSessions := sortedSessions.take 10
  let totalDuration := sortedSessions.foldl (fun sum s => sum + s.duration_minutes.getD 0) 0
  let avgDuration : Rat := if totalJobs > 0 then totalDuration / (totalJobs : Rat) else 0
  let errorCount := (sortedSessions.filter (fun s => s.status == "Incomplete")).length
  let materialTypes := materialCounts.length
  let peakHour := peakHourOf sortedSessions
  { totalJobs := totalJobs
    successRate := successRate
    utilizationHours := totalUtilization
    materialTypes := materialTypes
    avgDuration := avgDuration
    peakHour := peakHour
    errorCount := errorCount
    chartData := groupedData
    materialBreakdown := materialBreakdown
    recentSessions := recentSessions }

/-! ## Spec-side definitions (for refinement comparisons)

These restate parts of the specification in its own words, to be compared
with the definitions translated from the source. -/

/-- The window lower bound as the spec's lookback table states it: `now`
minus 30 days, 12 weeks, 12 calendar months, or 5 calendar years. -/
def specLower (tr : TimeRange) (now : SimpleDate) : Int :=
  match tr with
  | .daily => toDays now - 30
  | .weekly => toDays now - 12 * 7
  | .monthly => toDays (subMonthsDate now 12)
  | .yearly => toDays (subYearsDate now 5)

/-- Occurrence count of one `start_hour` value among a session list. -/
def countHour (l : List JobSession) (h : Int) : Nat :=
  (l.filter (fun s => decide (s.start_hour = some h))).length

/-- The distinct `start_hour` values of a session list, in order of first
appearance. -/
def hoursInOrder (l : List JobSession) : List Int :=
  dedupFirst (l.filterMap (fun s => s.start_hour))

/-- First argmax scan: fold the candidates, replacing the current best only
on a strictly larger value (so the earliest maximum wins). -/
def firstArgMax (f : Int → Nat) (l : List Int) (c : Int) : Int :=
  l.foldl (fun best h => if f best < f h then h else best) c

/-- The peak hour as the claim states it: the hour with the highest
occurrence count, ties broken by order of first appearance, defaulting to 9
when no session contributes an hour. -/
def specPeakHour (l : List JobSession) : Int :=
  match hoursInOrder l with
  | [] => 9
  | h0 :: hs => firstArgMax (countHour l) hs h0

/-- The peak hour the code actually computes, stated declaratively: a first
argmax scan over the hours in first-appearance order whose initial candidate
is hour 9 carrying its true count (0 when absent), so hour 9, when present,
wins any tie at the maximum count. -/
def specPeakHourAmended (l : List JobSession) : Int :=
  firstArgMax (countHour l) (hoursInOrder l) 9

/-- The bucket of one grouping key: the records whose parsed date maps to
that label. -/
def bucketOf (data : List DailyData) (gb : SimpleDate → String) (k : String) :
    List DailyData :=
  data.filter (fun item => decide ((parseISO item.start_date).map gb = some k))

/-- Replace an empty-string `material_type` (the mapper's encoding of an
absent column) by `null`. -/
def normalizeMT (s : JobSession) : JobSession :=
  { s with material_type := materialKey s }

/-- Invariant of the per-line scan: no completed field and no pending
character contains a double quote. -/
def noQuoteState (st : List String × List Char × Bool) : Prop :=
  (∀ f ∈ st.1, '"' ∉ f.data) ∧ '"' ∉ st.2.1

/-- The declarative value of the map-building fold over a processed prefix:
distinct keys in first-appearance order, each paired with its accumulated
bucket value. -/
def reprAccum [DecidableEq κ] (key : α → Option κ) (g : α → β → β) (d : α → β)
    (dflt : β) (q : List α) : List (κ × β) :=
  (dedupFirst (q.filterMap key)).map
    (fun k => (k, accumVal g d dflt (q.filter (fun a => decide (key a = some k)))))

/-- A daily record dated inside the daily window of `w1now`. -/
def w1rec : DailyData :=
  { start_date := "2024-06-01", total_sessions := 0, total_duration_minutes := 0,
    avg_duration_minutes := 0, completed_sessions := 0, material_types := 0,
    success_rate := 0, utilization_hours := 0, total_jobs := 0 }

/-- A daily record with an unparsable date. -/
def w1bad : DailyData := { w1rec with start_date := "bad" }

/-- The observation date used by the C1 witness. -/
def w1now : SimpleDate := { year := 2024, month := 6, day := 10 }

/-! ## Claim C4: session-level success rate and error count -/

/-- A completed session dated 2024-06-01. -/
def c4sC : JobSession :=
  { session_id := 1, session_start := "", start_date := "2024-06-01",
    start_hour := none, material_type := none, material_color := none,
    status := "Completed", duration_minutes := none, job_count := 1 }

/-- An incomplete session dated 2024-06-01. -/
def c4sI : JobSession := { c4sC with session_id := 2, status := "Incomplete" }

/-! ## Claim C6: determinism and the hidden clock input -/

/-- A daily record dated 2024-06-01 with nonzero utilization. -/
def c6rec : DailyData :=
  { start_date := "2024-06-01", total_sessions := 1, total_duration_minutes := 0,
    avg_duration_minutes := 0, completed_sessions := 1, material_types := 0,
    success_rate := 0, utilization_hours := 1, total_jobs := 1 }

/-! ## Claim C7: empty inputs -/

/-- The all-zero result: empty series, empty breakdown, empty recent list,
peak hour 9. -/
def emptyResult : AggResult :=
  { totalJobs := 0, successRate := 0, utilizationHours := 0, materialTypes := 0,
    avgDuration := 0, peakHour := 9, errorCount := 0, chartData := [],
    materialBreakdown := [], recentSessions := [] }

/-- A session with a given id and start hour, dated 2024-06-01. -/
def c5mk (i : Int) (h : Int) : JobSession :=
  { session_id := i, session_start := "", start_date := "2024-06-01",
    start_hour := some h, material_type := none, material_color := none,
    status := "Completed", duration_minutes := none, job_count := 1 }

/-- Hours 10, 10, 9, 9 in that order: hours 10 and 9 tie at count 2, and 10
appears first. -/
def c5cex : List JobSession := [c5mk 1 10, c5mk 2 10, c5mk 3 9, c5mk 4 9]

/-- A small daily CSV document with one unparsable integer cell. -/
def c9csv : String := "start_date,total_sessions,utilization_hours\n2024-06-01,abc,1.5"

/-! ## Claim C2: bucketing into the chart series -/

/-- The chart point emitted for one bucket label. -/
def chartPointOf (data : List DailyData) (gb : SimpleDate → String) (k : String) :
    ChartPoint :=
  { date := k, jobs := sumTS (bucketOf data gb k),
    success_rate := round1 (if sumTS (bucketOf data gb k) > 0 then
      ((sumCS (bucketOf data gb k) : Rat) / (sumTS (bucketOf data gb k) : Rat)) * 100
      else 0),
    utilization := round1 (sumUH (bucketOf data gb k)) }

/-- The distinct bucket labels in first-appearance order. -/
def chartKeys (data : List DailyData) (gb : SimpleDate → String) : List String :=
  dedupFirst (data.filterMap (fun item => (parseISO item.start_date).map gb))

/-- The daily aggregate of the C2 example scenario. -/
def c2rec : DailyData :=
  { start_date := "2024-01-05", total_sessions := 10, total_duration_minutes := 0,
    avg_duration_minutes := 0, completed_sessions := 9, material_types := 0,
    success_rate := 0, utilization_hours := 2, total_jobs := 10 }

/-- The observation date of the C2 example scenario. -/
def c2now : SimpleDate := { year := 2024, month := 1, day := 10 }

/-- Two records in distinct daily buckets, the later date listed first. -/
def c2recB : DailyData := { c2rec with start_date := "2024-01-06", total_sessions := 3 }

/-- A session with null material type, status Completed, dated 2024-06-01. -/
def c3null : JobSession :=
  { session_id := 1, session_start := "", start_date := "2024-06-01",
    start_hour := none, material_type := none, material_color := none,
    status := "Completed", duration_minutes := none, job_count := 1 }

/-- Sessions with two Zirconia, one PMMA, one null and one empty material. -/
def c3wl : List JobSession :=
  [{ c3null with material_type := some "Zirconia" },
   { c3null with session_id := 2, material_type := some "Zirconia" },
   { c3null with session_id := 3, material_type := some "PMMA" },
   { c3null with session_id := 4 },
   { c3null with session_id := 5, material_type := some "" }]

/-- A session whose material type is the empty string. -/
def c10s : JobSession :=
  { session_id := 1, session_start := "", start_date := "2024-06-01",
    start_hour := none, material_type := some "", material_color := none,
    status := "Completed", duration_minutes := none, job_count := 1 }

/-! ## Theorems -/

/-! ## Lemmas: trimming and the CSV scanner -/

theorem mem_trimChars {c : Char} {l : List Char} (h : c ∈ trimChars l) : c ∈ l := by
  unfold trimChars at h
  rw [List.mem_reverse] at h
  have h1 := (List.dropWhile_sublist (l := (l.dropWhile isJsSpace).reverse)
    (p := isJsSpace)).subset h
  rw [List.mem_reverse] at h1
  exact (List.dropWhile_sublist (l := l) (p := isJsSpace)).subset h1

theorem csvStep_noQuote {st : List String × List Char × Bool} {c : Char}
    (h : noQuoteState st) : noQuoteState (csvStep st c) := by
  obtain ⟨h1, h2⟩ := h
  unfold csvStep noQuoteState
  split
  · exact ⟨h1, h2⟩
  split
  · refine ⟨?_, by simp⟩
    intro f hf
    rcases List.mem_append.mp hf with hf | hf
    · exact h1 f hf
    · rcases List.mem_singleton.mp hf with rfl
      intro hc
      exact h2 (mem_trimChars hc)
  case isFalse hq _ =>
    refine ⟨h1, ?_⟩
    intro hc
    rcases List.mem_append.mp hc with hc | hc
    · exact h2 hc
    · rcases List.mem_singleton.mp hc with rfl
      exact hq rfl

theorem foldl_csvStep_noQuote (cs : List Char) :
    ∀ st, noQuoteState st → noQuoteState (cs.foldl csvStep st) := by
  induction cs with
  | nil => intro st h; exact h
  | cons c cs ih => intro st h; exact ih _ (csvStep_noQuote h)

theorem parseLine_no_quote (line : String) : ∀ f ∈ parseLine line, '"' ∉ f.data := by
  have h := foldl_csvStep_noQuote line.data ([], [], false) ⟨by simp, by simp⟩
  unfold parseLine
  intro f hf
  rcases List.mem_append.mp hf with hf | hf
  · exact h.1 f hf
  · rcases List.mem_singleton.mp hf with rfl
    intro hc
    exact h.2 (mem_trimChars hc)

/-! ## Lemmas: stable insertion sort -/

theorem insertOrd_perm (r : α → α → Bool) (x : α) (l : List α) :
    (insertOrd r x l).Perm (x :: l) := by
  induction l with
  | nil => simp [insertOrd]
  | cons y ys ih =>
    unfold insertOrd
    split
    · exact (ih.cons y).trans (List.Perm.swap x y ys)
    · exact List.Perm.refl _

theorem insSort_perm (r : α → α → Bool) (l : List α) : (insSort r l).Perm l := by
  induction l with
  | nil => simp [insSort]
  | cons x xs ih => exact (insertOrd_perm r x (insSort r xs)).trans (ih.cons x)

theorem insertOrd_pairwise (r : α → α → Bool)
    (hasym : ∀ a b, r a b = true → r b a = false)
    (hneg : ∀ a b c, r b a = false → r c b = false → r c a = false)
    (x : α) (l : List α) (hl : l.Pairwise (fun a b => r b a = false)) :
    (insertOrd r x l).Pairwise (fun a b => r b a = false) := by
  induction l with
  | nil => simp [insertOrd]
  | cons y ys ih =>
    rcases List.pairwise_cons.mp hl with ⟨hy, hys⟩
    unfold insertOrd
    split
    case isTrue hryx =>
      refine List.pairwise_cons.mpr ⟨?_, ih hys⟩
      intro z hz
      rcases List.mem_cons.mp ((insertOrd_perm r x ys).mem_iff.mp hz) with rfl | hz2
      · exact hasym y z hryx
      · exact hy z hz2
    case isFalse hryx =>
      refine List.pairwise_cons.mpr ⟨?_, hl⟩
      have hryx' : r y x = false := by
        cases hxy : r y x
        · rfl
        · exact absurd hxy hryx
      intro z hz
      rcases List.mem_cons.mp hz with rfl | hz2
      · exact hryx'
      · exact hneg x y z hryx' (hy z hz2)

theorem insSort_pairwise (r : α → α → Bool)
    (hasym : ∀ a b, r a b = true → r b a = false)
    (hneg : ∀ a b c, r b a = false → r c b = false → r c a = false)
    (l : List α) : (insSort r l).Pairwise (fun a b => r b a = false) := by
  induction l with
  | nil => simp [insSort]
  | cons x xs ih => exact insertOrd_pairwise r hasym hneg x _ ih

theorem insertOrd_filter_pos (r : α → α → Bool) (p : α → Bool) (x : α) (l : List α)
    (hx : p x = true) (h : ∀ y ∈ l, p y = true → r y x = false) :
    (insertOrd r x l).filter p = x :: l.filter p := by
  induction l with
  | nil => simp [insertOrd, hx]
  | cons y ys ih =>
    unfold insertOrd
    split
    case isTrue hryx =>
      have hpy : p y = false := by
        cases hpy : p y
        · rfl
        · rw [h y (List.mem_cons_self y ys) hpy] at hryx
          cases hryx
      rw [List.filter_cons_of_neg (by simp [hpy]), List.filter_cons_of_neg (by simp [hpy])]
      exact ih (fun y' hy' hp => h y' (List.mem_cons_of_mem y hy') hp)
    case isFalse hryx =>
      rw [List.filter_cons_of_pos (by simp [hx])]

theorem insertOrd_filter_neg (r : α → α → Bool) (p : α → Bool) (x : α) (l : List α)
    (hx : p x = false) : (insertOrd r x l).filter p = l.filter p := by
  induction l with
  | nil => simp [insertOrd, hx]
  | cons y ys ih =>
    unfold insertOrd
    split
    · rw [List.filter_cons, List.filter_cons, ih]
    · rw [List.filter_cons_of_neg (by simp [hx])]

theorem insSort_filter_eq (r : α → α → Bool) (p : α → Bool) (l : List α)
    (hp : ∀ a ∈ l, ∀ b ∈ l, p a = true → p b = true → r a b = false) :
    (insSort r l).filter p = l.filter p := by
  induction l with
  | nil => simp [insSort]
  | cons x xs ih =>
    have hsub : ∀ a ∈ xs, ∀ b ∈ xs, p a = true → p b = true → r a b = false :=
      fun a ha b hb => hp a (List.mem_cons_of_mem x ha) b (List.mem_cons_of_mem x hb)
    unfold insSort
    cases hx : p x
    · rw [insertOrd_filter_neg r p x _ hx, ih hsub, List.filter_cons_of_neg (by simp [hx])]
    · rw [insertOrd_filter_pos r p x _ hx ?hties, ih hsub,
        List.filter_cons_of_pos (by simp [hx])]
      case hties =>
        intro y hy hpy
        exact hp y (List.mem_cons_of_mem x ((insSort_perm r xs).mem_iff.mp hy))
          x (List.mem_cons_self x xs) hpy hx

theorem insertOrd_map (r : α → α → Bool) (f : α → α) (x : α) (l : List α)
    (hf : ∀ a b, r (f a) (f b) = r a b) :
    insertOrd r (f x) (l.map f) = (insertOrd r x l).map f := by
  induction l with
  | nil => simp [insertOrd]
  | cons y ys ih =>
    simp only [List.map_cons]
    unfold insertOrd
    rw [hf y x]
    split
    · simp only [List.map_cons, ih]
    · simp only [List.map_cons]

theorem insSort_map (r : α → α → Bool) (f : α → α) (l : List α)
    (hf : ∀ a b, r (f a) (f b) = r a b) :
    insSort r (l.map f) = (insSort r l).map f := by
  induction l with
  | nil => simp [insSort]
  | cons x xs ih =>
    simp only [List.map_cons]
    unfold insSort
    rw [ih]
    exact insertOrd_map r f x _ hf

/-! ## Lemmas: first-occurrence dedup and association maps -/

theorem dedupFirst_go_mem [DecidableEq κ] (l : List κ) :
    ∀ (acc : List κ) (k : κ),
      (k ∈ l.foldl (fun acc k => if k ∈ acc then acc else acc ++ [k]) acc) ↔
        k ∈ acc ∨ k ∈ l := by
  induction l with
  | nil => intro acc k; simp
  | cons a l ih =>
    intro acc k
    simp only [List.foldl_cons]
    by_cases ha : a ∈ acc
    · rw [if_pos ha, ih]
      constructor
      · rintro (h | h)
        · exact Or.inl h
        · exact Or.inr (List.mem_cons_of_mem a h)
      · rintro (h | h)
        · exact Or.inl h
        · rcases List.mem_cons.mp h with rfl | h
          · exact Or.inl ha
          · exact Or.inr h
    · rw [if_neg ha, ih]
      simp only [List.mem_append, List.mem_singleton, List.mem_cons]
      tauto

theorem mem_dedupFirst [DecidableEq κ] (l : List κ) (k : κ) :
    k ∈ dedupFirst l ↔ k ∈ l := by
  unfold dedupFirst
  rw [dedupFirst_go_mem]
  simp

theorem dedupFirst_go_nodup [DecidableEq κ] (l : List κ) :
    ∀ (acc : List κ), acc.Nodup →
      (l.foldl (fun acc k => if k ∈ acc then acc else acc ++ [k]) acc).Nodup := by
  induction l with
  | nil => intro acc h; exact h
  | cons a l ih =>
    intro acc h
    simp only [List.foldl_cons]
    by_cases ha : a ∈ acc
    · rw [if_pos ha]; exact ih acc h
    · rw [if_neg ha]
      refine ih _ (h.append (List.nodup_singleton a) ?_)
      intro x hx hxa
      rw [List.mem_singleton] at hxa
      subst hxa
      exact ha hx

theorem nodup_dedupFirst [DecidableEq κ] (l : List κ) : (dedupFirst l).Nodup :=
  dedupFirst_go_nodup l [] List.nodup_nil

theorem dedupFirst_append_single [DecidableEq κ] (l : List κ) (k : κ) :
    dedupFirst (l ++ [k]) =
      if k ∈ dedupFirst l then dedupFirst l else dedupFirst l ++ [k] := by
  unfold dedupFirst
  rw [List.foldl_append]
  rfl

theorem updAssoc_notMem [DecidableEq κ] (g : β → β) (d : β) (m : List (κ × β)) (k : κ)
    (h : k ∉ m.map Prod.fst) : updAssoc g d m k = m ++ [(k, d)] := by
  induction m with
  | nil => rfl
  | cons kv m ih =>
    obtain ⟨k', v⟩ := kv
    simp only [List.map_cons, List.mem_cons, not_or] at h
    unfold updAssoc
    rw [if_neg (fun he => h.1 he.symm), ih h.2]
    rfl

theorem updAssoc_map_form [DecidableEq κ] (g : β → β) (d : β) (ks : List κ)
    (f : κ → β) (k : κ) (hnd : ks.Nodup) (hk : k ∈ ks) :
    updAssoc g d (ks.map (fun k' => (k', f k'))) k =
      ks.map (fun k' => (k', if k' = k then g (f k') else f k')) := by
  induction ks with
  | nil => cases hk
  | cons a ks ih =>
    rcases List.nodup_cons.mp hnd with ⟨hna, hnd'⟩
    simp only [List.map_cons]
    unfold updAssoc
    by_cases hak : a = k
    · subst hak
      rw [if_pos rfl]
      congr 1
      · rw [if_pos rfl]
      · refine List.map_congr_left ?_
        intro x hx
        rw [if_neg (show ¬x = a from fun he => hna (he ▸ hx))]
    · rw [if_neg hak]
      have hk' : k ∈ ks := by
        rcases List.mem_cons.mp hk with h | h
        · exact absurd h.symm hak
        · exact h
      rw [ih hnd' hk']
      congr 1
      rw [if_neg hak]

theorem accumVal_append (g : α → β → β) (d : α → β) (dflt : β) (l0 : List α) (a : α)
    (h : l0 ≠ []) :
    accumVal g d dflt (l0 ++ [a]) = g a (accumVal g d dflt l0) := by
  cases l0 with
  | nil => cases h rfl
  | cons b bs => simp [accumVal, List.foldl_append]

theorem reprAccum_keys [DecidableEq κ] (key : α → Option κ) (g : α → β → β)
    (d : α → β) (dflt : β) (q : List α) :
    (reprAccum key g d dflt q).map Prod.fst = dedupFirst (q.filterMap key) := by
  unfold reprAccum
  rw [List.map_map]
  exact List.map_id _

theorem reprAccum_step [DecidableEq κ] (key : α → Option κ) (g : α → β → β)
    (d : α → β) (dflt : β) (p : List α) (a : α) :
    accumStep key g d (reprAccum key g d dflt p) a = reprAccum key g d dflt (p ++ [a]) := by
  unfold accumStep
  cases hka : key a with
  | none =>
    have hfm : (p ++ [a]).filterMap key = p.filterMap key := by
      rw [List.filterMap_append]
      simp [hka]
    have hfl : ∀ k : κ, (p ++ [a]).filter (fun x => decide (key x = some k)) =
        p.filter (fun x => decide (key x = some k)) := by
      intro k
      rw [List.filter_append]
      simp [hka]
    unfold reprAccum
    rw [hfm]
    refine List.map_congr_left ?_
    intro k _
    rw [hfl k]
  | some k0 =>
    show updAssoc (g a) (d a) (reprAccum key g d dflt p) k0 =
      reprAccum key g d dflt (p ++ [a])
    have hfm : (p ++ [a]).filterMap key = p.filterMap key ++ [k0] := by
      rw [List.filterMap_append]
      simp [hka]
    have hfl_ne : ∀ k : κ, k ≠ k0 →
        (p ++ [a]).filter (fun x => decide (key x = some k)) =
        p.filter (fun x => decide (key x = some k)) := by
      intro k hne
      have hpa : decide (key a = some k) = false := by
        simp only [hka, Option.some_inj, decide_eq_false_iff_not]
        exact fun h => hne h.symm
      rw [List.filter_append, List.filter_cons, hpa]
      simp
    have hfl_eq : (p ++ [a]).filter (fun x => decide (key x = some k0)) =
        p.filter (fun x => decide (key x = some k0)) ++ [a] := by
      have hpa : decide (key a = some k0) = true := by simp [hka]
      rw [List.filter_append, List.filter_cons, hpa]
      simp
    by_cases hmem : k0 ∈ dedupFirst (p.filterMap key)
    · have hne : p.filter (fun x => decide (key x = some k0)) ≠ [] := by
        rw [mem_dedupFirst] at hmem
        rcases List.mem_filterMap.mp hmem with ⟨x, hx, hkx⟩
        exact List.ne_nil_of_mem (List.mem_filter.mpr ⟨hx, by simp [hkx]⟩)
      rw [show reprAccum key g d dflt p = (dedupFirst (p.filterMap key)).map
          (fun k => (k, accumVal g d dflt (p.filter (fun x => decide (key x = some k)))))
          from rfl,
        updAssoc_map_form (g a) (d a) (dedupFirst (p.filterMap key))
          (fun k => accumVal g d dflt (p.filter (fun x => decide (key x = some k))))
          k0 (nodup_dedupFirst _) hmem]
      unfold reprAccum
      rw [hfm, dedupFirst_append_single, if_pos hmem]
      refine List.map_congr_left ?_
      intro k _
      by_cases hk : k = k0
      · subst hk
        rw [if_pos rfl, hfl_eq, accumVal_append _ _ _ _ _ hne]
      · rw [if_neg hk, hfl_ne k hk]
    · have hempty : p.filter (fun x => decide (key x = some k0)) = [] := by
        rw [List.filter_eq_nil_iff]
        intro x hx
        simp only [decide_eq_true_eq]
        intro hkx
        exact hmem ((mem_dedupFirst _ _).mpr (List.mem_filterMap.mpr ⟨x, hx, hkx⟩))
      rw [updAssoc_notMem _ _ _ _ (by rw [reprAccum_keys]; exact hmem)]
      unfold reprAccum
      rw [hfm, dedupFirst_append_single, if_neg hmem, List.map_append]
      congr 1
      · refine List.map_congr_left ?_
        intro k hk
        have hkne : k ≠ k0 := fun he => hmem (he ▸ hk)
        rw [hfl_ne k hkne]
      · simp only [List.map_singleton]
        rw [hfl_eq, hempty]
        simp [accumVal]

theorem assocAccum_go [DecidableEq κ] (key : α → Option κ) (g : α → β → β)
    (d : α → β) (dflt : β) :
    ∀ (l p : List α),
      l.foldl (accumStep key g d) (reprAccum key g d dflt p) =
        reprAccum key g d dflt (p ++ l) := by
  intro l
  induction l with
  | nil => intro p; simp
  | cons a l ih =>
    intro p
    rw [List.foldl_cons, reprAccum_step, ih (p ++ [a]), List.append_assoc]
    rfl

theorem assocAccum_eq [DecidableEq κ] (key : α → Option κ) (g : α → β → β)
    (d : α → β) (dflt : β) (l : List α) :
    assocAccum key g d l = reprAccum key g d dflt l := by
  have h := assocAccum_go key g d dflt l []
  simpa [assocAccum] using h

theorem lookupD_map_form [DecidableEq κ] (ks : List κ) (f : κ → β) (k : κ) (dflt : β) :
    lookupD (ks.map (fun k' => (k', f k'))) k dflt = if k ∈ ks then f k else dflt := by
  induction ks with
  | nil => simp [lookupD]
  | cons a ks ih =>
    simp only [List.map_cons]
    unfold lookupD
    by_cases hak : a = k
    · subst hak
      rw [if_pos rfl, if_pos (List.mem_cons_self a ks)]
    · rw [if_neg hak, ih]
      by_cases hk : k ∈ ks
      · rw [if_pos hk, if_pos (List.mem_cons_of_mem a hk)]
      · rw [if_neg hk, if_neg]
        intro hmem
        rcases List.mem_cons.mp hmem with h | h
        · exact hak h.symm
        · exact hk h

theorem foldl_add_one (l : List α) : ∀ n : Nat, l.foldl (fun b _ => b + 1) n = n + l.length := by
  induction l with
  | nil => intro n; simp
  | cons a l ih =>
    intro n
    rw [List.foldl_cons, ih]
    simp only [List.length_cons]
    omega

theorem foldl_append_one (l : List α) :
    ∀ acc : List α, l.foldl (fun b a => b ++ [a]) acc = acc ++ l := by
  induction l with
  | nil => intro acc; simp
  | cons a l ih =>
    intro acc
    rw [List.foldl_cons, ih, List.append_assoc]
    rfl

theorem accumVal_count (l0 : List α) :
    accumVal (fun (_ : α) (c : Nat) => c + 1) (fun _ => 1) 0 l0 = l0.length := by
  cases l0 with
  | nil => rfl
  | cons a as =>
    show as.foldl (fun b _ => b + 1) 1 = as.length + 1
    rw [foldl_add_one]
    omega

theorem accumVal_collect (l0 : List α) :
    accumVal (fun (a : α) b => b ++ [a]) (fun a => [a]) [] l0 = l0 := by
  cases l0 with
  | nil => rfl
  | cons a as =>
    show as.foldl (fun b a' => b ++ [a']) [a] = a :: as
    rw [foldl_append_one]
    rfl

theorem buildMaterialCounts_eq (l : List JobSession) :
    buildMaterialCounts l = (dedupFirst (l.filterMap materialKey)).map
      (fun m => (m, (l.filter (fun s => decide (materialKey s = some m))).length)) := by
  unfold buildMaterialCounts
  rw [assocAccum_eq materialKey _ _ 0]
  unfold reprAccum
  refine List.map_congr_left ?_
  intro m _
  rw [accumVal_count]

theorem buildHourCounts_eq (l : List JobSession) :
    buildHourCounts l = (hoursInOrder l).map (fun h => (h, countHour l h)) := by
  unfold buildHourCounts hoursInOrder countHour
  rw [assocAccum_eq _ _ _ 0]
  unfold reprAccum
  refine List.map_congr_left ?_
  intro h _
  rw [accumVal_count]

theorem grouped_eq (data : List DailyData) (gb : SimpleDate → String) :
    assocAccum (fun item => (parseISO item.start_date).map gb)
      (fun item bucket => bucket ++ [item]) (fun item => [item]) data =
    (dedupFirst (data.filterMap (fun item => (parseISO item.start_date).map gb))).map
      (fun k => (k, bucketOf data gb k)) := by
  rw [assocAccum_eq _ _ _ ([] : List DailyData)]
  unfold reprAccum bucketOf
  refine List.map_congr_left ?_
  intro k _
  rw [accumVal_collect]

/-! ## Claim C1: the time window -/

theorem specLower_eq_windowStart (tr : TimeRange) (now : SimpleDate) :
    specLower tr now = windowStart tr now := by
  cases tr <;> norm_num [specLower, windowStart]

theorem inWindowB_iff (startD nowD : Int) (s : String) :
    inWindowB startD nowD s = true ↔
      ∃ d, parseISO s = some d ∧ startD ≤ toDays d ∧ toDays d ≤ nowD := by
  unfold inWindowB
  cases h : parseISO s with
  | none => simp [h]
  | some d => simp [h]

theorem mem_filtered_daily (dailyData : List DailyData) (tr : TimeRange)
    (now : SimpleDate) (item : DailyData) :
    item ∈ filteredDailyOf dailyData tr now ↔
      item ∈ dailyData ∧ ∃ d, parseISO item.start_date = some d ∧
        specLower tr now ≤ toDays d ∧ toDays d ≤ toDays now := by
  rw [specLower_eq_windowStart]
  unfold filteredDailyOf
  rw [List.mem_filter, inWindowB_iff]

theorem mem_filtered_sessions (sessions : List JobSession) (tr : TimeRange)
    (now : SimpleDate) (s : JobSession) :
    s ∈ filteredSessionsOf sessions tr now ↔
      s ∈ sessions ∧ ∃ d, parseISO s.start_date = some d ∧
        specLower tr now ≤ toDays d ∧ toDays d ≤ toDays now := by
  rw [specLower_eq_windowStart]
  unfold filteredSessionsOf
  rw [List.mem_filter, inWindowB_iff]

/-- C1: for every granularity, `aggregate` filters both the daily-aggregate
records and the session records to exactly those whose `start_date` parses
to a date within `[now - L, now]` inclusive, where L is 30 days (daily),
12 weeks (weekly), 12 calendar months (monthly) or 5 calendar years
(yearly); a record whose `start_date` fails to parse is excluded from both
filtered sets, never defaulted to an in-range date. -/
theorem c1_window_filtering (tr : TimeRange) (dailyData : List DailyData)
    (sessions : List JobSession) (now : SimpleDate) :
    (∀ item, item ∈ filteredDailyOf dailyData tr now ↔
        item ∈ dailyData ∧ ∃ d, parseISO item.start_date = some d ∧
          specLower tr now ≤ toDays d ∧ toDays d ≤ toDays now)
    ∧ (∀ s, s ∈ filteredSessionsOf sessions tr now ↔
        s ∈ sessions ∧ ∃ d, parseISO s.start_date = some d ∧
          specLower tr now ≤ toDays d ∧ toDays d ≤ toDays now)
    ∧ (∀ item : DailyData, parseISO item.start_date = none →
        item ∉ filteredDailyOf dailyData tr now)
    ∧ (∀ s : JobSession, parseISO s.start_date = none →
        s ∉ filteredSessionsOf sessions tr now) := by
  refine ⟨mem_filtered_daily dailyData tr now, mem_filtered_sessions sessions tr now, ?_, ?_⟩
  · intro item hnone hmem
    rcases ((mem_filtered_daily dailyData tr now item).mp hmem).2 with ⟨d, hd, _⟩
    rw [hnone] at hd
    cases hd
  · intro s hnone hmem
    rcases ((mem_filtered_sessions sessions tr now s).mp hmem).2 with ⟨d, hd, _⟩
    rw [hnone] at hd
    cases hd

theorem c1_window_filtering_witness :
    w1rec ∈ filteredDailyOf [w1rec, w1bad] TimeRange.daily w1now ∧
    w1bad ∉ filteredDailyOf [w1rec, w1bad] TimeRange.daily w1now := by
  constructor
  · exact ((c1_window_filtering TimeRange.daily [w1rec, w1bad] [] w1now).1 w1rec).mpr
      ⟨by decide, ⟨{ year := 2024, month := 6, day := 1 }, by decide, by decide, by decide⟩⟩
  · exact (c1_window_filtering TimeRange.daily [w1rec, w1bad] [] w1now).2.2.1 w1bad (by decide)

/-! ## Projections of `aggregate` (definitional) -/

theorem aggregate_totalJobs (d : List DailyData) (s : List JobSession)
    (tr : TimeRange) (now : SimpleDate) :
    (aggregate d s tr now).totalJobs = (filteredSessionsOf s tr now).length := rfl

theorem aggregate_successRate (d : List DailyData) (s : List JobSession)
    (tr : TimeRange) (now : SimpleDate) :
    (aggregate d s tr now).successRate =
      (if (filteredSessionsOf s tr now).length > 0 then
        ((((filteredSessionsOf s tr now).filter (fun x => x.status == "Completed")).length : Rat) /
          ((filteredSessionsOf s tr now).length : Rat)) * 100
      else 0) := rfl

theorem aggregate_utilizationHours (d : List DailyData) (s : List JobSession)
    (tr : TimeRange) (now : SimpleDate) :
    (aggregate d s tr now).utilizationHours =
      (filteredDailyOf d tr now).foldl (fun sum item => sum + item.utilization_hours) 0 := rfl

theorem aggregate_materialTypes (d : List DailyData) (s : List JobSession)
    (tr : TimeRange) (now : SimpleDate) :
    (aggregate d s tr now).materialTypes =
      (buildMaterialCounts (filteredSessionsOf s tr now)).length := rfl

theorem aggregate_avgDuration (d : List DailyData) (s : List JobSession)
    (tr : TimeRange) (now : SimpleDate) :
    (aggregate d s tr now).avgDuration =
      (if (filteredSessionsOf s tr now).length > 0 then
        ((sortSessionsDesc (filteredSessionsOf s tr now)).foldl
            (fun sum x => sum + x.duration_minutes.getD 0) 0) /
          ((filteredSessionsOf s tr now).length : Rat)
      else 0) := rfl

theorem aggregate_peakHour (d : List DailyData) (s : List JobSession)
    (tr : TimeRange) (now : SimpleDate) :
    (aggregate d s tr now).peakHour =
      peakHourOf (sortSessionsDesc (filteredSessionsOf s tr now)) := rfl

theorem aggregate_errorCount (d : List DailyData) (s : List JobSession)
    (tr : TimeRange) (now : SimpleDate) :
    (aggregate d s tr now).errorCount =
      ((sortSessionsDesc (filteredSessionsOf s tr now)).filter
        (fun x => x.status == "Incomplete")).length := rfl

theorem aggregate_chartData (d : List DailyData) (s : List JobSession)
    (tr : TimeRange) (now : SimpleDate) :
    (aggregate d s tr now).chartData =
      groupDataByPeriod (filteredDailyOf d tr now) (groupKey tr) := rfl

theorem aggregate_materialBreakdown (d : List DailyData) (s : List JobSession)
    (tr : TimeRange) (now : SimpleDate) :
    (aggregate d s tr now).materialBreakdown =
      materialBreakdownOf (filteredSessionsOf s tr now) := rfl

theorem aggregate_recentSessions (d : List DailyData) (s : List JobSession)
    (tr : TimeRange) (now : SimpleDate) :
    (aggregate d s tr now).recentSessions =
      (sortSessionsDesc (filteredSessionsOf s tr now)).take 10 := rfl

/-- C4: over the filtered sessions, `successRate` is 0 when the filtered
count is 0 and otherwise `100 × completed / total` at full precision, and
`errorCount` counts exactly the sessions with status `Incomplete` (an
`In Progress` or any other status counts toward neither); two sessions, one
`Completed` and one `Incomplete`, yield `errorCount = 1` and
`successRate = 50`. -/
theorem c4_success_error (dailyData : List DailyData) (sessions : List JobSession)
    (tr : TimeRange) (now : SimpleDate) :
    ((aggregate dailyData sessions tr now).successRate =
      (if (filteredSessionsOf sessions tr now).length = 0 then 0
       else 100 * (((filteredSessionsOf sessions tr now).filter
              (fun x => x.status == "Completed")).length : Rat) /
            ((filteredSessionsOf sessions tr now).length : Rat)))
    ∧ (aggregate dailyData sessions tr now).errorCount =
        ((filteredSessionsOf sessions tr now).filter
          (fun x => x.status == "Incomplete")).length
    ∧ (aggregate [] [c4sC, c4sI] TimeRange.daily w1now).errorCount = 1
    ∧ (aggregate [] [c4sC, c4sI] TimeRange.daily w1now).successRate = 50 := by
  have hex : (aggregate [] [c4sC, c4sI] TimeRange.daily w1now).successRate = 50 := by
    rw [aggregate_successRate,
      show filteredSessionsOf [c4sC, c4sI] TimeRange.daily w1now = [c4sC, c4sI] from by decide,
      show List.filter (fun x => x.status == "Completed") [c4sC, c4sI] = [c4sC] from by decide]
    norm_num
  refine ⟨?_, ?_, by decide, hex⟩
  · rw [aggregate_successRate]
    rcases Nat.eq_zero_or_pos (filteredSessionsOf sessions tr now).length with h | h
    · simp [h]
    · rw [if_pos h, if_neg (by omega)]
      ring
  · rw [aggregate_errorCount]
    exact ((insSort_perm (fun a b => decide (effTimeOf b < effTimeOf a))
      (filteredSessionsOf sessions tr now)).filter _).length_eq

/-- C6 counterexample: the source reads `new Date()` internally, so two
calls with identical `(dailyData, sessions, timeRange)` inputs made at
different instants can return different results — the output is not a
function of the declared inputs alone. -/
theorem c6_counterexample :
    aggregate [c6rec] [] TimeRange.daily { year := 2024, month := 6, day := 10 } ≠
      aggregate [c6rec] [] TimeRange.daily { year := 2025, month := 6, day := 10 } :=
  fun h => absurd (congrArg (fun r => r.chartData.length) h) (by decide)

/-- C6 (amended): with the observation instant `now` fixed as an explicit
parameter, `aggregate` is deterministic — two calls with equal inputs, equal
granularity and equal `now` yield identical results; there is no other
hidden state. -/
theorem c6_amended_determinism (d1 d2 : List DailyData) (s1 s2 : List JobSession)
    (g1 g2 : TimeRange) (n1 n2 : SimpleDate)
    (hd : d1 = d2) (hs : s1 = s2) (hg : g1 = g2) (hn : n1 = n2) :
    aggregate d1 s1 g1 n1 = aggregate d2 s2 g2 n2 := by
  subst hd
  subst hs
  subst hg
  subst hn
  rfl

theorem c6_amended_determinism_witness :
    aggregate [] [] TimeRange.daily { year := 2024, month := 1, day := 1 } =
      aggregate [] [] TimeRange.daily { year := 2024, month := 1, day := 1 } :=
  c6_amended_determinism [] [] [] [] TimeRange.daily TimeRange.daily
    { year := 2024, month := 1, day := 1 } { year := 2024, month := 1, day := 1 }
    rfl rfl rfl rfl

/-- C7: for every granularity and observation date, `aggregate` on empty
input arrays returns zeroed totals, an empty chart series, an empty material
breakdown, an empty recent-sessions list and peak hour 9; no step fails on
zero input records. -/
theorem c7_empty_inputs (tr : TimeRange) (now : SimpleDate) :
    aggregate [] [] tr now = emptyResult := by
  cases tr <;> rfl

/-! ## Claim C8: quoted fields in the CSV parser -/

/-- C8: a comma inside a double-quoted span does not split the field — the
line `x,"A,B",y` parses to the three fields `x`, `A,B`, `y` — and a double
quote only toggles the in-quotes state and is never emitted into any output
field (no escaped-quote handling). -/
theorem c8_quoted_fields :
    (∀ line : String, ∀ f ∈ parseLine line, '"' ∉ f.data)
    ∧ parseLine "\"A,B\"" = ["A,B"]
    ∧ parseCSV "x,\"A,B\",y" = [["x", "A,B", "y"]] := by
  refine ⟨parseLine_no_quote, by decide, by decide⟩

theorem c8_quoted_fields_witness : '"' ∉ ("A,B" : String).data :=
  c8_quoted_fields.1 "\"A,B\"" "A,B" (by decide)

/-! ## Claim C5: peak hour -/

theorem countHour_eq_zero_of_not_mem (l : List JobSession) (h : Int)
    (hn : h ∉ hoursInOrder l) : countHour l h = 0 := by
  unfold countHour
  rw [List.length_eq_zero, List.filter_eq_nil_iff]
  intro s hs
  simp only [decide_eq_true_eq]
  intro hsh
  exact hn ((mem_dedupFirst _ _).mpr (List.mem_filterMap.mpr ⟨s, hs, hsh⟩))

theorem lookupD_hourCounts (l : List JobSession) (h : Int) :
    lookupD (buildHourCounts l) h 0 = countHour l h := by
  rw [buildHourCounts_eq, lookupD_map_form]
  by_cases hm : h ∈ hoursInOrder l
  · rw [if_pos hm]
  · rw [if_neg hm, countHour_eq_zero_of_not_mem l h hm]

theorem peakFold_eq (f : Int → Nat) (E : List (Int × Nat))
    (hE : ∀ h, lookupD E h 0 = f h) :
    ∀ (hs : List Int) (c : Int) (n : Nat),
      ((hs.map (fun h => (h, f h))).foldl
        (fun mx e => if lookupD E mx.1 0 < e.2 then e else mx) (c, n)).1 =
      hs.foldl (fun best h => if f best < f h then h else best) c := by
  intro hs
  induction hs with
  | nil => intro c n; rfl
  | cons h hs ih =>
    intro c n
    show ((hs.map (fun h => (h, f h))).foldl
        (fun mx e => if lookupD E mx.1 0 < e.2 then e else mx)
        (if lookupD E c 0 < f h then (h, f h) else (c, n))).1 =
      hs.foldl (fun best h => if f best < f h then h else best)
        (if f c < f h then h else c)
    rw [hE c]
    by_cases hlt : f c < f h
    · rw [if_pos hlt, if_pos hlt]
      exact ih h (f h)
    · rw [if_neg hlt, if_neg hlt]
      exact ih c n

theorem peakHourOf_eq_amended (l : List JobSession) :
    peakHourOf l = specPeakHourAmended l := by
  unfold peakHourOf specPeakHourAmended firstArgMax
  rw [buildHourCounts_eq]
  show (((hoursInOrder l).map (fun h => (h, countHour l h))).foldl
      (fun mx e => if lookupD ((hoursInOrder l).map (fun h => (h, countHour l h))) mx.1 0 < e.2
        then e else mx) (9, 0)).1 =
    (hoursInOrder l).foldl (fun best h => if countHour l best < countHour l h then h else best) 9
  refine peakFold_eq (countHour l) _ ?_ (hoursInOrder l) 9 0
  intro h
  rw [← buildHourCounts_eq]
  exact lookupD_hourCounts l h

/-- C5 counterexample: on sessions with hours `[10, 10, 9, 9]` the claimed
first-appearance tie-break picks 10, but the code returns 9 — the reduce's
initial candidate `[9, 0]` is compared through `hourCounts.get(max[0])`, so
hour 9, when present, wins any tie at the maximum count. -/
theorem c5_counterexample :
    specPeakHour (sortSessionsDesc (filteredSessionsOf c5cex TimeRange.daily w1now)) = 10
    ∧ (aggregate [] c5cex TimeRange.daily w1now).peakHour = 9 := by
  constructor
  · decide
  · decide

/-- C5 (amended): `peakHour` is the result of a strict running-max scan over
the hour counts in first-appearance order (taken over the filtered sessions
as reordered by the in-place recent-sessions sort), whose initial candidate
is hour 9 carrying its actual count — so hour 9, when present, wins any tie
at the maximum count, other ties fall to the hour appearing first, and the
default is 9 when no session contributes an hour; sessions with hours
`[9, 9, 10]` still yield peak hour 9. -/
theorem c5_amended_peak_hour (dailyData : List DailyData) (sessions : List JobSession)
    (tr : TimeRange) (now : SimpleDate) :
    ((aggregate dailyData sessions tr now).peakHour =
      specPeakHourAmended (sortSessionsDesc (filteredSessionsOf sessions tr now)))
    ∧ (aggregate [] [c5mk 1 9, c5mk 2 9, c5mk 3 10] TimeRange.daily w1now).peakHour = 9
    ∧ specPeakHourAmended [] = 9 := by
  refine ⟨?_, by decide, by decide⟩
  rw [aggregate_peakHour]
  exact peakHourOf_eq_amended _

/-! ## Claim C9: the record mappers -/

theorem objGet_objSet_self (o : RawObj) (k : String) (v : FieldVal) :
    objGet (objSet o k v) k = some v := by
  induction o with
  | nil => simp [objSet, objGet]
  | cons kv rest ih =>
    obtain ⟨k', v'⟩ := kv
    unfold objSet
    by_cases h : k' = k
    · rw [if_pos h]
      unfold objGet
      rw [if_pos h]
    · rw [if_neg h]
      unfold objGet
      rw [if_neg h]
      exact ih

theorem objGet_objSet_ne (o : RawObj) (k k2 : String) (v : FieldVal) (h : k2 ≠ k) :
    objGet (objSet o k v) k2 = objGet o k2 := by
  induction o with
  | nil =>
    show objGet [(k, v)] k2 = objGet [] k2
    unfold objGet
    rw [if_neg (fun he => h he.symm)]
    rfl
  | cons kv rest ih =>
    obtain ⟨k', v'⟩ := kv
    unfold objSet
    by_cases hk : k' = k
    · rw [if_pos hk]
      unfold objGet
      subst hk
      rw [if_neg (fun he => h he.symm), if_neg (fun he => h he.symm)]
    · rw [if_neg hk]
      unfold objGet
      by_cases hk2 : k' = k2
      · rw [if_pos hk2, if_pos hk2]
      · rw [if_neg hk2, if_neg hk2]
        exact ih

theorem mapRowAux_get_notMem (coerce : String → String → Option FieldVal)
    (row : List String) :
    ∀ (hs : List String) (i : Nat) (obj : RawObj) (k : String),
      k ∉ hs.map jsTrim →
      objGet (mapRowAux coerce row hs i obj) k = objGet obj k := by
  intro hs
  induction hs with
  | nil => intro i obj k _; rfl
  | cons header hs ih =>
    intro i obj k hk
    simp only [List.map_cons, List.mem_cons, not_or] at hk
    show objGet (mapRowAux coerce row hs (i + 1)
      (match coerce (jsTrim header) (jsTrim (row.getD i "")) with
       | some v => objSet obj (jsTrim header) v
       | none => obj)) k = objGet obj k
    cases hc : coerce (jsTrim header) (jsTrim (row.getD i "")) with
    | some v =>
      rw [ih (i + 1) _ k hk.2]
      exact objGet_objSet_ne obj (jsTrim header) k v hk.1
    | none =>
      rw [ih (i + 1) _ k hk.2]

theorem mapRowAux_get (coerce : String → String → Option FieldVal) (row : List String) :
    ∀ (hs : List String) (i j : Nat) (obj : RawObj) (hj : j < hs.length),
      (hs.map jsTrim).Nodup →
      objGet (mapRowAux coerce row hs i obj) (jsTrim (hs.get ⟨j, hj⟩)) =
        (match coerce (jsTrim (hs.get ⟨j, hj⟩)) (jsTrim (row.getD (i + j) "")) with
         | some v => some v
         | none => objGet obj (jsTrim (hs.get ⟨j, hj⟩))) := by
  intro hs
  induction hs with
  | nil =>
    intro i j obj hj _
    exact absurd hj (Nat.not_lt_zero j)
  | cons header hs ih =>
    intro i j obj hj hnd
    have hnd' : (jsTrim header :: hs.map jsTrim).Nodup := by simpa using hnd
    rcases List.nodup_cons.mp hnd' with ⟨hhead, htail⟩
    cases j with
    | zero =>
      show objGet (mapRowAux coerce row hs (i + 1)
        (match coerce (jsTrim header) (jsTrim (row.getD i "")) with
         | some v => objSet obj (jsTrim header) v
         | none => obj)) (jsTrim header) =
        (match coerce (jsTrim header) (jsTrim (row.getD (i + 0) "")) with
         | some v => some v
         | none => objGet obj (jsTrim header))
      rw [show i + 0 = i from rfl]
      cases hc : coerce (jsTrim header) (jsTrim (row.getD i "")) with
      | some v =>
        rw [mapRowAux_get_notMem coerce row hs (i + 1) _ _ hhead]
        exact objGet_objSet_self obj (jsTrim header) v
      | none =>
        rw [mapRowAux_get_notMem coerce row hs (i + 1) _ _ hhead]
    | succ j' =>
      have hj' : j' < hs.length := by
        simpa using Nat.lt_of_succ_lt_succ hj
      have hget : (header :: hs).get ⟨j' + 1, hj⟩ = hs.get ⟨j', hj'⟩ := rfl
      have hmem : jsTrim (hs.get ⟨j', hj'⟩) ∈ hs.map jsTrim :=
        List.mem_map.mpr ⟨hs.get ⟨j', hj'⟩, hs.get_mem _ _, rfl⟩
      have hne : jsTrim (hs.get ⟨j', hj'⟩) ≠ jsTrim header :=
        fun he => hhead (he ▸ hmem)
      show objGet (mapRowAux coerce row hs (i + 1)
        (match coerce (jsTrim header) (jsTrim (row.getD i "")) with
         | some v => objSet obj (jsTrim header) v
         | none => obj)) (jsTrim (hs.get ⟨j', hj'⟩)) =
        (match coerce (jsTrim (hs.get ⟨j', hj'⟩)) (jsTrim (row.getD (i + (j' + 1)) "")) with
         | some v => some v
         | none => objGet obj (jsTrim (hs.get ⟨j', hj'⟩)))
      rw [show i + (j' + 1) = (i + 1) + j' from by omega]
      cases hc : coerce (jsTrim header) (jsTrim (row.getD i "")) with
      | some v =>
        rw [ih (i + 1) j' _ hj' htail]
        cases hc2 : coerce (jsTrim (hs.get ⟨j', hj'⟩)) (jsTrim (row.getD (i + 1 + j') "")) with
        | some v2 => rfl
        | none =>
          exact objGet_objSet_ne obj (jsTrim header) _ v hne
      | none =>
        rw [ih (i + 1) j' _ hj' htail]

/-- C9: neither mapper drops a data row — the output has exactly one object
per data row — and coercion is per-column and local: under distinct trimmed
headers, the field stored under a trimmed header name equals that column's
declared coercion of the row's trimmed cell (integer columns `parseInt` with
default 0 on failure or absence, real columns `parseFloat` with default 0,
string columns the trimmed raw value, an absent cell reading as the empty
string), so a bad cell degrades only its own field, never the record. -/
theorem c9_mapper_totality (csvText : String)
    (hnd : (((parseCSV csvText).headD []).map jsTrim).Nodup) :
    ((parseDailyData csvText).length = (parseCSV csvText).length - 1)
    ∧ ((parseJobSessions csvText).length = (parseCSV csvText).length - 1)
    ∧ (∀ row : List String, ∀ j : Nat, ∀ hj : j < ((parseCSV csvText).headD []).length,
        objGet (mapRowAux dailyCoerce row ((parseCSV csvText).headD []) 0 [])
            (jsTrim (((parseCSV csvText).headD []).get ⟨j, hj⟩)) =
          dailyCoerce (jsTrim (((parseCSV csvText).headD []).get ⟨j, hj⟩))
            (jsTrim (row.getD j "")))
    ∧ (∀ row : List String, ∀ j : Nat, ∀ hj : j < ((parseCSV csvText).headD []).length,
        objGet (mapRowAux sessionCoerce row ((parseCSV csvText).headD []) 0 [])
            (jsTrim (((parseCSV csvText).headD []).get ⟨j, hj⟩)) =
          sessionCoerce (jsTrim (((parseCSV csvText).headD []).get ⟨j, hj⟩))
            (jsTrim (row.getD j "")))
    ∧ (parseDailyData csvText =
        ((parseCSV csvText).drop 1).map
          (fun row => mapRowAux dailyCoerce row ((parseCSV csvText).headD []) 0 []))
    ∧ (∀ v : String, jsParseInt v = none → dailyCoerce "total_sessions" v =
        some (FieldVal.intV 0))
    ∧ (∀ v : String, jsParseFloat v = none → sessionCoerce "duration_minutes" v =
        some (FieldVal.numV 0))
    ∧ (∀ v : String, sessionCoerce "material_type" v = some (FieldVal.strV v)) := by
  refine ⟨by simp [parseDailyData], by simp [parseJobSessions], ?_, ?_, rfl, ?_, ?_, ?_⟩
  · intro row j hj
    rw [mapRowAux_get dailyCoerce row _ 0 j [] hj hnd]
    simp only [Nat.zero_add]
    cases hdc : dailyCoerce (jsTrim (((parseCSV csvText).headD []).get ⟨j, hj⟩))
        (jsTrim (row.getD j "")) with
    | some v => rfl
    | none => rfl
  · intro row j hj
    rw [mapRowAux_get sessionCoerce row _ 0 j [] hj hnd]
    simp only [Nat.zero_add]
    cases hdc : sessionCoerce (jsTrim (((parseCSV csvText).headD []).get ⟨j, hj⟩))
        (jsTrim (row.getD j "")) with
    | some v => rfl
    | none => rfl
  · intro v h
    show some (FieldVal.intV ((jsParseInt v).getD 0)) = some (FieldVal.intV 0)
    rw [h]
    rfl
  · intro v h
    show some (FieldVal.numV ((jsParseFloat v).getD 0)) = some (FieldVal.numV 0)
    rw [h]
    rfl
  · intro v
    rfl

theorem c9_mapper_totality_witness :
    (parseDailyData c9csv).length = (parseCSV c9csv).length - 1 ∧
    objGet (mapRowAux dailyCoerce ["2024-06-01", "abc", "1.5"]
        ((parseCSV c9csv).headD []) 0 [])
      (jsTrim (((parseCSV c9csv).headD []).get ⟨1, by decide⟩)) =
      dailyCoerce (jsTrim (((parseCSV c9csv).headD []).get ⟨1, by decide⟩))
        (jsTrim (["2024-06-01", "abc", "1.5"].getD 1 "")) := by
  have h := c9_mapper_totality c9csv (by decide)
  exact ⟨h.1, h.2.2.1 ["2024-06-01", "abc", "1.5"] 1 (by decide)⟩

theorem groupDataByPeriod_eq (data : List DailyData) (gb : SimpleDate → String) :
    groupDataByPeriod data gb =
      insSort (fun a b => decide (a.date < b.date))
        ((chartKeys data gb).map (chartPointOf data gb)) := by
  simp only [groupDataByPeriod]
  rw [grouped_eq, List.map_map]
  rfl

theorem sumTS_nonneg (l : List DailyData) (h : ∀ item ∈ l, 0 ≤ item.total_sessions) :
    0 ≤ sumTS l := by
  have key : ∀ (l : List DailyData) (init : Int),
      (∀ item ∈ l, 0 ≤ item.total_sessions) → 0 ≤ init →
      0 ≤ l.foldl (fun s item => s + item.total_sessions) init := by
    intro l
    induction l with
    | nil => intro init _ h2; simpa using h2
    | cons a l ih =>
      intro init h1 h2
      rw [List.foldl_cons]
      refine ih _ (fun x hx => h1 x (List.mem_cons_of_mem a hx)) ?_
      have := h1 a (List.mem_cons_self a l)
      omega
  exact key l 0 h (by omega)

theorem round1_zero : round1 0 = 0 := by
  norm_num [round1]

theorem c2_example_eval :
    (aggregate [c2rec] [] TimeRange.daily c2now).chartData =
      [{ date := "Jan 05", jobs := 10, success_rate := 90, utilization := 2 }] := by
  rw [aggregate_chartData,
    show filteredDailyOf [c2rec] TimeRange.daily c2now = [c2rec] from by decide,
    groupDataByPeriod_eq,
    show chartKeys [c2rec] (groupKey TimeRange.daily) = ["Jan 05"] from by decide]
  show [chartPointOf [c2rec] (groupKey TimeRange.daily) "Jan 05"] = _
  have hb : bucketOf [c2rec] (groupKey TimeRange.daily) "Jan 05" = [c2rec] := by decide
  unfold chartPointOf
  rw [hb]
  have hts : sumTS [c2rec] = 10 := by
    show (0 : Int) + c2rec.total_sessions = 10
    norm_num [c2rec]
  have hcs : sumCS [c2rec] = 9 := by
    show (0 : Int) + c2rec.completed_sessions = 9
    norm_num [c2rec]
  have huh : sumUH [c2rec] = 2 := by
    show (0 : Rat) + c2rec.utilization_hours = 2
    norm_num [c2rec]
  rw [hts, hcs, huh]
  norm_num [round1]

/-- C2: the chart series has exactly one point per distinct grouping-key
bucket; a point's `jobs` is the bucket's sum of `total_sessions`, its
`success_rate` is 0 when `jobs` is 0 and otherwise `100 × completed / jobs`
rounded to one decimal, its `utilization` is the bucket's summed
`utilization_hours` rounded to one decimal, and the series is sorted
ascending by bucket label; the single in-window aggregate
`{total_sessions 10, completed_sessions 9, utilization_hours 2}` yields the
single point `{jobs 10, success_rate 90, utilization 2}`. -/
theorem c2_bucketing (data : List DailyData) (gb : SimpleDate → String)
    (hnn : ∀ item ∈ data, 0 ≤ item.total_sessions) :
    (((groupDataByPeriod data gb).map ChartPoint.date).Nodup)
    ∧ (∀ k, k ∈ (groupDataByPeriod data gb).map ChartPoint.date ↔
        ∃ item ∈ data, (parseISO item.start_date).map gb = some k)
    ∧ (∀ p ∈ groupDataByPeriod data gb,
        p.jobs = sumTS (bucketOf data gb p.date)
        ∧ p.success_rate = (if sumTS (bucketOf data gb p.date) = 0 then 0
            else round1 (100 * (sumCS (bucketOf data gb p.date) : Rat) /
              (sumTS (bucketOf data gb p.date) : Rat)))
        ∧ p.utilization = round1 (sumUH (bucketOf data gb p.date)))
    ∧ (groupDataByPeriod data gb).Pairwise (fun a b => a.date ≤ b.date)
    ∧ (aggregate [c2rec] [] TimeRange.daily c2now).chartData =
        [{ date := "Jan 05", jobs := 10, success_rate := 90, utilization := 2 }] := by
  have hperm : (groupDataByPeriod data gb).Perm
      ((chartKeys data gb).map (chartPointOf data gb)) := by
    rw [groupDataByPeriod_eq]
    exact insSort_perm _ _
  have hdatemap : ((chartKeys data gb).map (chartPointOf data gb)).map ChartPoint.date =
      chartKeys data gb := by
    rw [List.map_map]
    exact List.map_id _
  have hperm2 : ((groupDataByPeriod data gb).map ChartPoint.date).Perm (chartKeys data gb) := by
    rw [← hdatemap]
    exact hperm.map ChartPoint.date
  refine ⟨?_, ?_, ?_, ?_, c2_example_eval⟩
  · exact hperm2.nodup_iff.mpr (nodup_dedupFirst _)
  · intro k
    rw [hperm2.mem_iff]
    unfold chartKeys
    rw [mem_dedupFirst, List.mem_filterMap]
  · intro p hp
    rcases List.mem_map.mp (hperm.mem_iff.mp hp) with ⟨k, hk, rfl⟩
    have hd : (chartPointOf data gb k).date = k := rfl
    rw [hd]
    refine ⟨rfl, ?_, rfl⟩
    by_cases hts : sumTS (bucketOf data gb k) = 0
    · rw [if_pos hts]
      show round1 (if sumTS (bucketOf data gb k) > 0 then _ else 0) = 0
      rw [hts]
      norm_num [round1_zero]
    · have hsub : ∀ item ∈ bucketOf data gb k, 0 ≤ item.total_sessions := by
        intro item hitem
        exact hnn item (List.mem_of_mem_filter hitem)
      have hpos : sumTS (bucketOf data gb k) > 0 := by
        have := sumTS_nonneg _ hsub
        omega
      rw [if_neg hts]
      show round1 (if sumTS (bucketOf data gb k) > 0 then
        ((sumCS (bucketOf data gb k) : Rat) / (sumTS (bucketOf data gb k) : Rat)) * 100
        else 0) = _
      rw [if_pos hpos]
      congr 1
      ring
  · rw [groupDataByPeriod_eq]
    have hpw := insSort_pairwise (fun a b : ChartPoint => decide (a.date < b.date))
      (fun a b h => by
        simp only [decide_eq_true_eq] at h
        simp only [decide_eq_false_iff_not]
        exact lt_asymm h)
      (fun a b c h1 h2 => by
        simp only [decide_eq_false_iff_not, not_lt] at h1 h2 ⊢
        exact le_trans h1 h2)
      ((chartKeys data gb).map (chartPointOf data gb))
    refine hpw.imp ?_
    intro a b h
    simp only [decide_eq_false_iff_not, not_lt] at h
    exact h

theorem c2_bucketing_witness :
    (((groupDataByPeriod [c2recB, c2rec] (groupKey TimeRange.daily)).map
      ChartPoint.date).Nodup)
    ∧ (groupDataByPeriod [c2recB, c2rec] (groupKey TimeRange.daily)).Pairwise
        (fun a b => a.date ≤ b.date) := by
  have h := c2_bucketing [c2recB, c2rec] (groupKey TimeRange.daily) (by decide)
  exact ⟨h.1, h.2.2.2.1⟩

/-! ## Claim C3: material breakdown -/

theorem materialKey_ne_empty (s : JobSession) (m : String)
    (h : materialKey s = some m) : m ≠ "" := by
  unfold materialKey at h
  cases hmt : s.material_type with
  | none => rw [hmt] at h; cases h
  | some m' =>
    rw [hmt] at h
    have h2 : (if m' = "" then none else some m') = some m := h
    by_cases he : m' = ""
    · rw [if_pos he] at h2; cases h2
    · rw [if_neg he] at h2
      injection h2 with h3
      subst h3
      exact he

theorem materialKey_eq_iff (s : JobSession) (m : String) (hm : m ≠ "") :
    (materialKey s = some m) ↔ s.material_type = some m := by
  unfold materialKey
  cases hmt : s.material_type with
  | none => exact Iff.rfl
  | some m' =>
    show (if m' = "" then none else some m') = some m ↔ some m' = some m
    by_cases he : m' = ""
    · subst he
      rw [if_pos rfl]
      constructor
      · intro h; cases h
      · intro h
        injection h with h2
        exact absurd h2.symm hm
    · rw [if_neg he]

theorem countMat_eq (l : List JobSession) (m : String) (hm : m ≠ "") :
    (l.filter (fun s => decide (materialKey s = some m))).length =
    (l.filter (fun s => decide (s.material_type = some m))).length := by
  rw [List.filter_congr (fun s _ => ?_)]
  simp only [decide_eq_decide]
  exact materialKey_eq_iff s m hm

theorem breakdown_entry_spec (l : List JobSession) :
    ∀ e ∈ materialBreakdownOf l,
      e.material ≠ ""
      ∧ e.count = (l.filter (fun s => decide (s.material_type = some e.material))).length
      ∧ e.color = getMaterialColor e.material := by
  intro e he
  have hmem := (insSort_perm _ _).mem_iff.mp he
  rw [buildMaterialCounts_eq] at hmem
  rw [List.map_map] at hmem
  rcases List.mem_map.mp hmem with ⟨m, hm, rfl⟩
  have hmk : m ∈ l.filterMap materialKey := (mem_dedupFirst _ _).mp hm
  rcases List.mem_filterMap.mp hmk with ⟨s, _, hs⟩
  have hne : m ≠ "" := materialKey_ne_empty s m hs
  refine ⟨hne, ?_, rfl⟩
  exact countMat_eq l m hne

theorem breakdown_materials (l : List JobSession) :
    ((materialBreakdownOf l).map MatEntry.material).Perm
      (dedupFirst (l.filterMap materialKey)) := by
  have h1 := (insSort_perm (fun a b => decide (b.count < a.count))
    ((buildMaterialCounts l).map mkMatEntry)).map MatEntry.material
  refine h1.trans (List.Perm.of_eq ?_)
  rw [buildMaterialCounts_eq, List.map_map, List.map_map]
  exact List.map_id _

/-- C3: the material breakdown counts sessions grouped by truthy (non-null,
non-empty) `material_type` only — a session without one contributes to no
entry (not even an "Unknown" entry) while still counting toward `totalJobs`
and the success-rate denominator; the breakdown is sorted descending by
count with ties keeping first-encountered order, and colors come from a
fixed table with one fixed fallback color for unlisted materials; the single
session `{material_type: null, status: "Completed"}` yields `totalJobs 1`,
`successRate 100` and an empty breakdown. -/
theorem c3_material_breakdown (l : List JobSession) (dailyData : List DailyData)
    (sessions : List JobSession) (tr : TimeRange) (now : SimpleDate) :
    (∀ e ∈ materialBreakdownOf l,
        e.material ≠ ""
        ∧ e.count = (l.filter (fun s => decide (s.material_type = some e.material))).length
        ∧ e.color = getMaterialColor e.material)
    ∧ ((materialBreakdownOf l).map MatEntry.material).Nodup
    ∧ (∀ m, m ∈ (materialBreakdownOf l).map MatEntry.material ↔
        m ≠ "" ∧ ∃ s ∈ l, s.material_type = some m)
    ∧ (materialBreakdownOf l).Pairwise (fun a b => b.count ≤ a.count)
    ∧ (∀ c : Nat, (materialBreakdownOf l).filter (fun e => decide (e.count = c)) =
        ((buildMaterialCounts l).map mkMatEntry).filter (fun e => decide (e.count = c)))
    ∧ (∀ m, m ∉ (["Pan Dental", "Denture Care", "hyperDENT", "Unknown"] : List String) →
        getMaterialColor m = "#6b7280")
    ∧ (aggregate dailyData sessions tr now).totalJobs =
        (filteredSessionsOf sessions tr now).length
    ∧ (aggregate [] [c3null] TimeRange.daily w1now).totalJobs = 1
    ∧ (aggregate [] [c3null] TimeRange.daily w1now).successRate = 100
    ∧ (aggregate [] [c3null] TimeRange.daily w1now).materialBreakdown = [] := by
  have hsr : (aggregate [] [c3null] TimeRange.daily w1now).successRate = 100 := by
    rw [aggregate_successRate,
      show filteredSessionsOf [c3null] TimeRange.daily w1now = [c3null] from by decide,
      show List.filter (fun x => x.status == "Completed") [c3null] = [c3null] from by decide]
    norm_num
  refine ⟨breakdown_entry_spec l, ?_, ?_, ?_, ?_, ?_, rfl, by decide, hsr, by decide⟩
  · exact (breakdown_materials l).nodup_iff.mpr (nodup_dedupFirst _)
  · intro m
    rw [(breakdown_materials l).mem_iff, mem_dedupFirst, List.mem_filterMap]
    constructor
    · rintro ⟨s, hsl, hsm⟩
      have hne := materialKey_ne_empty s m hsm
      exact ⟨hne, s, hsl, (materialKey_eq_iff s m hne).mp hsm⟩
    · rintro ⟨hne, s, hsl, hsm⟩
      exact ⟨s, hsl, (materialKey_eq_iff s m hne).mpr hsm⟩
  · have hpw := insSort_pairwise (fun a b : MatEntry => decide (b.count < a.count))
      (fun a b h => by
        simp only [decide_eq_true_eq] at h
        simp only [decide_eq_false_iff_not]
        omega)
      (fun a b c h1 h2 => by
        simp only [decide_eq_false_iff_not] at h1 h2 ⊢
        omega)
      ((buildMaterialCounts l).map mkMatEntry)
    refine hpw.imp ?_
    intro a b h
    simp only [decide_eq_false_iff_not] at h
    omega
  · intro c
    refine insSort_filter_eq _ _ _ ?_
    intro a _ b _ hpa hpb
    simp only [decide_eq_true_eq] at hpa hpb
    simp only [decide_eq_false_iff_not]
    omega
  · intro m hm
    simp only [List.mem_cons, List.not_mem_nil, or_false, not_or] at hm
    obtain ⟨h1, h2, h3, h4⟩ := hm
    unfold getMaterialColor
    rw [if_neg h1, if_neg h2, if_neg h3, if_neg h4]

theorem c3_material_breakdown_witness :
    ((materialBreakdownOf c3wl).map MatEntry.material).Nodup
    ∧ (materialBreakdownOf c3wl).Pairwise (fun a b => b.count ≤ a.count)
    ∧ getMaterialColor "Zirconia" = "#6b7280" := by
  have h := c3_material_breakdown c3wl [] [] TimeRange.daily w1now
  exact ⟨h.2.1, h.2.2.2.1, h.2.2.2.2.2.1 "Zirconia" (by decide)⟩

/-! ## Claim C10: empty-string material type behaves like null -/

theorem matstep_idem (o : Option String) :
    (match (match o with
      | some m => if m = "" then none else some m
      | none => none : Option String) with
      | some m => if m = "" then none else some m
      | none => none) =
    (match o with
      | some m => if m = "" then none else some m
      | none => none : Option String) := by
  cases o with
  | none => rfl
  | some m =>
    by_cases he : m = ""
    · subst he
      rfl
    · simp only [if_neg he]

theorem materialKey_normalize (s : JobSession) :
    materialKey (normalizeMT s) = materialKey s :=
  matstep_idem s.material_type

theorem filteredSessions_normalize (sessions : List JobSession) (tr : TimeRange)
    (now : SimpleDate) :
    filteredSessionsOf (sessions.map normalizeMT) tr now =
      (filteredSessionsOf sessions tr now).map normalizeMT := by
  unfold filteredSessionsOf
  rw [List.filter_map]
  rfl

theorem buildMaterialCounts_normalize (l : List JobSession) :
    buildMaterialCounts (l.map normalizeMT) = buildMaterialCounts l := by
  rw [buildMaterialCounts_eq, buildMaterialCounts_eq]
  have h1 : (l.map normalizeMT).filterMap materialKey = l.filterMap materialKey := by
    rw [List.filterMap_map]
    congr 1
    funext s
    exact materialKey_normalize s
  rw [h1]
  refine List.map_congr_left ?_
  intro m _
  have h2 : (l.map normalizeMT).filter (fun s => decide (materialKey s = some m)) =
      (l.filter (fun s => decide (materialKey (normalizeMT s) = some m))).map normalizeMT := by
    rw [List.filter_map]
    rfl
  rw [h2, List.length_map]
  have h3 : l.filter (fun s => decide (materialKey (normalizeMT s) = some m)) =
      l.filter (fun s => decide (materialKey s = some m)) := by
    refine List.filter_congr ?_
    intro s _
    rw [materialKey_normalize]
  rw [h3]

theorem sortSessions_normalize (l : List JobSession) :
    sortSessionsDesc (l.map normalizeMT) = (sortSessionsDesc l).map normalizeMT := by
  unfold sortSessionsDesc
  exact insSort_map _ normalizeMT l (fun a b => rfl)

/-- C10: replacing every empty-string `material_type` (the mapper's encoding
of an absent column) by `null` changes none of the material breakdown, the
distinct-material count, `totalJobs`, `successRate`, `avgDuration` or
`errorCount` — the aggregation treats the two identically: such sessions are
excluded from the breakdown (whose entries all carry nonempty materials)
while still counting toward the other metrics; a single empty-material
session gives `totalJobs 1` and an empty breakdown. -/
theorem c10_empty_material (dailyData : List DailyData) (sessions : List JobSession)
    (tr : TimeRange) (now : SimpleDate) :
    ((aggregate dailyData (sessions.map normalizeMT) tr now).materialBreakdown =
      (aggregate dailyData sessions tr now).materialBreakdown)
    ∧ ((aggregate dailyData (sessions.map normalizeMT) tr now).materialTypes =
      (aggregate dailyData sessions tr now).materialTypes)
    ∧ ((aggregate dailyData (sessions.map normalizeMT) tr now).totalJobs =
      (aggregate dailyData sessions tr now).totalJobs)
    ∧ ((aggregate dailyData (sessions.map normalizeMT) tr now).successRate =
      (aggregate dailyData sessions tr now).successRate)
    ∧ ((aggregate dailyData (sessions.map normalizeMT) tr now).avgDuration =
      (aggregate dailyData sessions tr now).avgDuration)
    ∧ ((aggregate dailyData (sessions.map normalizeMT) tr now).errorCount =
      (aggregate dailyData sessions tr now).errorCount)
    ∧ (∀ e ∈ (aggregate dailyData sessions tr now).materialBreakdown, e.material ≠ "")
    ∧ (aggregate [] [c10s] TimeRange.daily w1now).totalJobs = 1
    ∧ (aggregate [] [c10s] TimeRange.daily w1now).materialBreakdown = [] := by
  have hfl := filteredSessions_normalize sessions tr now
  have hlen : (filteredSessionsOf (sessions.map normalizeMT) tr now).length =
      (filteredSessionsOf sessions tr now).length := by
    rw [hfl, List.length_map]
  have hcomp : ∀ p : JobSession → Bool, (∀ s, p (normalizeMT s) = p s) →
      ((filteredSessionsOf sessions tr now).map normalizeMT).filter p =
        ((filteredSessionsOf sessions tr now).filter p).map normalizeMT := by
    intro p hp
    rw [List.filter_map]
    congr 1
    refine List.filter_congr ?_
    intro s _
    exact hp s
  refine ⟨?_, ?_, ?_, ?_, ?_, ?_, ?_, by decide, by decide⟩
  · rw [aggregate_materialBreakdown, aggregate_materialBreakdown, hfl]
    unfold materialBreakdownOf
    rw [buildMaterialCounts_normalize]
  · rw [aggregate_materialTypes, aggregate_materialTypes, hfl,
      buildMaterialCounts_normalize]
  · rw [aggregate_totalJobs, aggregate_totalJobs, hlen]
  · rw [aggregate_successRate, aggregate_successRate, hfl, List.length_map,
      hcomp (fun x => x.status == "Completed") (fun s => rfl), List.length_map]
  · rw [aggregate_avgDuration, aggregate_avgDuration, hfl, List.length_map,
      sortSessions_normalize, List.foldl_map]
    rfl
  · rw [aggregate_errorCount, aggregate_errorCount, hfl, sortSessions_normalize]
    have h4 : ((sortSessionsDesc (filteredSessionsOf sessions tr now)).map
        normalizeMT).filter (fun x => x.status == "Incomplete") =
        ((sortSessionsDesc (filteredSessionsOf sessions tr now)).filter
          (fun x => x.status == "Incomplete")).map normalizeMT := by
      rw [List.filter_map]
      rfl
    rw [h4, List.length_map]
  · rw [aggregate_materialBreakdown]
    intro e he
    exact (breakdown_entry_spec _ e he).1

theorem c10_empty_material_witness :
    (aggregate [] ([c10s].map normalizeMT) TimeRange.daily w1now).materialBreakdown =
      (aggregate [] [c10s] TimeRange.daily w1now).materialBreakdown :=
  (c10_empty_material [] [c10s] TimeRange.daily w1now).1

end Dgshape
